import Mathlib

/-!
# EC2 interruption monitor (`main.go`): embedding and verified properties

The program is a sequence of HTTP calls driven by a timer and a signal
channel.  The embedding threads an explicit trace of observable events
(log lines, requests handed to `client.Do`, and entries into the three
functions of the file) through each function.  Everything the Go standard
library decides (transport results, JSON decoding of response bodies, URL
parsing and re-encoding inside `http.NewRequest`) is a field of `Env`;
responses may depend on the whole history, so successive polls can be
answered differently.
-/

namespace Icrn

/-! ## Constants (main.go 16-25) -/

def tokenURL : String := "http://169.254.169.254/latest/api/token"

def interruptionURL : String :=
  "http://169.254.169.254/latest/meta-data/spot/instance-action"

def rebalanceURL : String :=
  "http://169.254.169.254/latest/meta-data/events/recommendations/rebalance"

/-! ## Data model -/

/-- A `time.Time` value, kept as the text that `%s` prints for it. -/
structure Time where
  text : String
  deriving DecidableEq, Repr

/-- SpotInterruptionNotice (main.go 28-31). -/
structure SpotInterruptionNotice where
  Action : String
  Time : Time
  deriving DecidableEq, Repr

/-- RebalanceRecommendation (main.go 34-36). -/
structure RebalanceRecommendation where
  NoticeTime : Time
  deriving DecidableEq, Repr

/-- NtfyMessage (main.go 111-123), fields in declaration order. -/
structure NtfyMessage where
  Topic : String := ""
  Title : String := ""
  Message : String := ""
  Priority : Int := 0
  Tags : String := ""
  Click : String := ""
  Actions : String := ""
  Email : String := ""
  Delay : String := ""
  Icon : String := ""
  Markdown : Bool := false
  deriving DecidableEq, Repr

/-- A JSON scalar, as produced for the field types of `NtfyMessage`. -/
inductive JsonValue where
  | str (s : String)
  | num (n : Int)
  | bool (b : Bool)
  deriving DecidableEq, Repr

/-- A JSON object: its members in output order. -/
abbrev JsonObject := List (String × JsonValue)

inductive Method where
  | GET
  | PUT
  | POST
  deriving DecidableEq, Repr

/-- An outgoing request as handed to `client.Do`.  Header names are kept as
the source writes them. -/
structure Request where
  method : Method
  url : String
  headers : List (String × String)
  body : Option JsonObject
  deriving DecidableEq, Repr

/-- A response body: the bytes `io.ReadAll` yields and the read error, if any. -/
structure Body where
  data : String
  readErr : Option String
  deriving DecidableEq, Repr

structure Response where
  StatusCode : Int
  Body : Body
  deriving DecidableEq, Repr

/-- Observable events of a run, oldest first. -/
inductive Event where
  /-- one line written by the `log` package (timestamp left out) -/
  | log (line : String)
  /-- a request handed to `client.Do` -/
  | request (req : Request)
  /-- entry into `getIMDSToken` -/
  | getToken
  /-- entry into `checkMetadata token ntfyTopic` -/
  | checkMeta (token topic : String)
  /-- entry into `SendNtfyNotification msg` -/
  | sendNtfy (msg : NtfyMessage)
  deriving DecidableEq, Repr

abbrev Trace := List Event

/-- What the standard library and the network decide. -/
structure Env where
  /-- the outcome of `http.NewRequest method url`: the error, or the URL that
  the built request carries, which is the given string as `net/url` parses it
  and writes it back (a space in the path comes back as `%20`) -/
  newRequest : Method → String → Except String String
  /-- the outcome of `client.Do req` after the given history -/
  doReq : Trace → Request → Except String Response
  /-- the outcome of `json.NewDecoder(body).Decode(&notice)` -/
  decodeNotice : Body → Except String SpotInterruptionNotice
  /-- the outcome of `json.NewDecoder(body).Decode(&rebalance)` -/
  decodeRebalance : Body → Except String RebalanceRecommendation

/-! ## Trace projections -/

def logs : Trace → List String
  | [] => []
  | Event.log l :: t => l :: logs t
  | _ :: t => logs t

def requests : Trace → List Request
  | [] => []
  | Event.request r :: t => r :: requests t
  | _ :: t => requests t

def sendCalls : Trace → List NtfyMessage
  | [] => []
  | Event.sendNtfy m :: t => m :: sendCalls t
  | _ :: t => sendCalls t

def checkCalls : Trace → List (String × String)
  | [] => []
  | Event.checkMeta tok top :: t => (tok, top) :: checkCalls t
  | _ :: t => checkCalls t

/-- The GET requests of a trace: the reads of the metadata endpoints. -/
def metadataGets (t : Trace) : List Request :=
  (requests t).filter (fun r => decide (r.method = Method.GET))

def tokenCalls : Trace → Nat
  | [] => 0
  | Event.getToken :: t => tokenCalls t + 1
  | _ :: t => tokenCalls t

/-- The text `%v` prints for an `error` value (`nil` prints as `<nil>`). -/
def fmtErr : Option String → String
  | none => "<nil>"
  | some e => e

/-- The text `%d` prints for an `int`. -/
def fmtInt (n : Int) : String := toString n

/-- Substring containment: `s` occurs in `t`. -/
def Contains (t s : String) : Prop := ∃ pre post : String, t = pre ++ s ++ post

/-! ## json.Marshal on NtfyMessage (struct tags, main.go 112-122) -/

/-- A member tagged `omitempty`: left out when the value is the zero value. -/
def omitEmptyStr (key v : String) : JsonObject :=
  if v = "" then [] else [(key, JsonValue.str v)]

/-- The members `json.Marshal` writes for an `NtfyMessage`: `Topic` is tagged
`-` and never written, `message` is always written, every other member is
tagged `omitempty`. -/
def marshalFields (msg : NtfyMessage) : JsonObject :=
  omitEmptyStr "title" msg.Title
    ++ [("message", JsonValue.str msg.Message)]
    ++ (if msg.Priority = 0 then [] else [("priority", JsonValue.num msg.Priority)])
    ++ omitEmptyStr "tags" msg.Tags
    ++ omitEmptyStr "click" msg.Click
    ++ omitEmptyStr "actions" msg.Actions
    ++ omitEmptyStr "email" msg.Email
    ++ omitEmptyStr "delay" msg.Delay
    ++ omitEmptyStr "icon" msg.Icon
    ++ (if msg.Markdown = false then [] else [("markdown", JsonValue.bool msg.Markdown)])

/-- The result of `json.Marshal(msg)`.  For this struct (strings, an int, a
bool) marshalling has no failing case, so the result is always `ok`. -/
def jsonMarshal (msg : NtfyMessage) : Except String JsonObject :=
  Except.ok (marshalFields msg)

/-- The keys of an object. -/
def keys (o : JsonObject) : List String := o.map Prod.fst

/-! ## SendNtfyNotification (main.go 126-158) -/

/-- The POST that `SendNtfyNotification` hands to the client: `built` is the
URL of the request that `http.NewRequest` returned. -/
def ntfyRequest (built : String) (payload : JsonObject) : Request :=
  { method := Method.POST
    url := built
    headers := [("Content-Type", "application/json")]
    body := some payload }

/-- SendNtfyNotification: the trace after the call and the returned error
(`none` is Go's `nil`). -/
def SendNtfyNotification (env : Env) (h : Trace) (msg : NtfyMessage) :
    Trace × Option String :=
  let h := h ++ [Event.sendNtfy msg]
  if msg.Topic = "" then
    (h, some "topic cannot be empty")
  else
    let url := "https://ntfy.sh/" ++ msg.Topic
    match jsonMarshal msg with
    | Except.error e => (h, some ("error marshalling message: " ++ e))
    | Except.ok payload =>
      match env.newRequest Method.POST url with
      | Except.error e => (h, some ("error creating request: " ++ e))
      | Except.ok built =>
        let req := ntfyRequest built payload
        match env.doReq h req with
        | Except.error e =>
          (h ++ [Event.request req], some ("error sending notification: " ++ e))
        | Except.ok resp =>
          let h := h ++ [Event.request req]
          if resp.StatusCode ≥ 400 then
            let body := resp.Body.data
            (h, some ("error response from ntfy.sh: " ++ body ++ ", status code: "
                        ++ fmtInt resp.StatusCode))
          else
            (h, none)

/-! ## getIMDSToken (main.go 38-57) -/

/-- The PUT that `getIMDSToken` sends.  `tokenURL` is a constant already in
the form `net/url` writes back, so the built request carries it unchanged. -/
def tokenRequest : Request :=
  { method := Method.PUT
    url := tokenURL
    headers := [("X-aws-ec2-metadata-token-ttl-seconds", "21600")]
    body := none }

/-- getIMDSToken: the trace after the call and the `(string, error)` result.
The status code of the response is not inspected. -/
def getIMDSToken (env : Env) (h : Trace) : Trace × Except String String :=
  let h := h ++ [Event.getToken]
  match env.newRequest Method.PUT tokenURL with
  | Except.error e => (h, Except.error e)
  | Except.ok _ =>
    match env.doReq h tokenRequest with
    | Except.error e => (h ++ [Event.request tokenRequest], Except.error e)
    | Except.ok resp =>
      let h := h ++ [Event.request tokenRequest]
      match resp.Body.readErr with
      | some e => (h, Except.error e)
      | none => (h, Except.ok resp.Body.data)

/-! ## checkMetadata (main.go 59-109) -/

/-- The GET sent to a metadata endpoint.  The error of `http.NewRequest` is
discarded by the source (`req, _ :=`), so it is not consulted here; both
endpoint URLs are constants already in the form `net/url` writes back. -/
def metadataRequest (url token : String) : Request :=
  { method := Method.GET
    url := url
    headers := [("X-aws-ec2-metadata-token", token)]
    body := none }

/-- The message built at main.go 72-77. -/
def interruptionMessage (ntfyTopic : String) : NtfyMessage :=
  { Topic := ntfyTopic
    Title := "EC2 Spot Instance Interruption"
    Message := "Spot instance interruption notice received"
    Tags := "info,cloud" }

/-- The message built at main.go 96-101. -/
def rebalanceMessage (ntfyTopic : String) : NtfyMessage :=
  { Topic := ntfyTopic
    Title := "EC2 Rebalance Recommendation"
    Message := "Instance received rebalance recommendation"
    Tags := "info,cloud" }

/-- The log line of main.go 71. -/
def interruptionLine (notice : SpotInterruptionNotice) : String :=
  "SPOT INTERRUPTION NOTICE: Action: " ++ notice.Action ++ ", Time: " ++ notice.Time.text

/-- The log line of main.go 95. -/
def rebalanceLine (rebalance : RebalanceRecommendation) : String :=
  "REBALANCE RECOMMENDATION: Notice Time: " ++ rebalance.NoticeTime.text

/-- The call of `SendNtfyNotification` followed by the caller's error check
(main.go 72-80 and 96-104). -/
def notifyAndLog (env : Env) (h : Trace) (msg : NtfyMessage) : Trace :=
  match SendNtfyNotification env h msg with
  | (h, some e) => h ++ [Event.log ("Failed to send ntfy notification: " ++ e)]
  | (h, none) => h

/-- First block of checkMetadata: the spot interruption check (main.go 60-84). -/
def checkInterruption (env : Env) (h : Trace) (token ntfyTopic : String) : Trace :=
  let req := metadataRequest interruptionURL token
  let r := env.doReq h req
  let h := h ++ [Event.request req]
  match r with
  | Except.ok resp =>
    if resp.StatusCode = 200 then
      match env.decodeNotice resp.Body with
      | Except.ok notice =>
        notifyAndLog env (h ++ [Event.log (interruptionLine notice)])
          (interruptionMessage ntfyTopic)
      | Except.error _ => h
    else
      h ++ [Event.log ("No spot interruption notice found or error: " ++ fmtErr none)]
  | Except.error e =>
    h ++ [Event.log ("No spot interruption notice found or error: " ++ fmtErr (some e))]

/-- Second block of checkMetadata: the rebalance check (main.go 86-108). -/
def checkRebalance (env : Env) (h : Trace) (token ntfyTopic : String) : Trace :=
  let req := metadataRequest rebalanceURL token
  let r := env.doReq h req
  let h := h ++ [Event.request req]
  match r with
  | Except.ok resp =>
    if resp.StatusCode = 200 then
      match env.decodeRebalance resp.Body with
      | Except.ok rebalance =>
        notifyAndLog env (h ++ [Event.log (rebalanceLine rebalance)])
          (rebalanceMessage ntfyTopic)
      | Except.error _ => h
    else
      h ++ [Event.log ("No rebalance recommendation found or error: " ++ fmtErr none)]
  | Except.error e =>
    h ++ [Event.log ("No rebalance recommendation found or error: " ++ fmtErr (some e))]

/-- checkMetadata: the two blocks in sequence. -/
def checkMetadata (env : Env) (h : Trace) (token ntfyTopic : String) : Trace :=
  let h := h ++ [Event.checkMeta token ntfyTopic]
  let h := checkInterruption env h token ntfyTopic
  checkRebalance env h token ntfyTopic

/-! ## main (main.go 160-192) -/

inductive Signal where
  | SIGINT
  | SIGTERM
  deriving DecidableEq, Repr

/-- The text `%v` prints for a signal. -/
def Signal.text : Signal → String
  | Signal.SIGINT => "interrupt"
  | Signal.SIGTERM => "terminated"

/-- State of the run loop between two evaluations of `select`. -/
structure LoopState where
  /-- a tick is buffered in `ticker.C` -/
  tickReady : Bool
  /-- a signal is buffered in `sigChan` (capacity 1) -/
  sigPending : Option Signal
  trace : Trace
  /-- the exit status, once the process has ended -/
  exited : Option Int
  deriving DecidableEq, Repr

/-- The two cases of the `select` statement. -/
inductive Arm where
  | ticker
  | signal
  deriving DecidableEq, Repr

/-- The body of `case <-ticker.C` (main.go 181-186). -/
def pollCycle (env : Env) (ntfyTopic : String) (h : Trace) : Trace :=
  match getIMDSToken env h with
  | (h, Except.error e) => h ++ [Event.log ("Error getting IMDSv2 token: " ++ e)]
  | (h, Except.ok token) => checkMetadata env h token ntfyTopic

/-- One iteration of the `for { select { ... } }` loop taking the given case.
`none` when that case cannot proceed (its channel is empty) or the process has
ended.  When both channels hold a value Go picks either case, so both arms
are enabled. -/
def loopStep (env : Env) (ntfyTopic : String) (arm : Arm) (s : LoopState) :
    Option LoopState :=
  match s.exited with
  | some _ => none
  | none =>
    match arm with
    | Arm.ticker =>
      if s.tickReady then
        some { s with tickReady := false, trace := pollCycle env ntfyTopic s.trace }
      else none
    | Arm.signal =>
      match s.sigPending with
      | some sig =>
        some { s with
          sigPending := none
          trace := s.trace ++ [Event.log ("Received signal " ++ sig.text ++ ", shutting down")]
          exited := some 0 }
      | none => none

/-- What can happen next: the timer fires, a signal is delivered, or the loop
runs one `select`. -/
inductive Action where
  | fire
  | deliver (sig : Signal)
  | select (arm : Arm)
  deriving DecidableEq, Repr

/-- One step of the process together with its surroundings.  Sends on both
channels are non-blocking: a value is dropped when the buffer is full. -/
def step (env : Env) (ntfyTopic : String) (a : Action) (s : LoopState) :
    Option LoopState :=
  match s.exited with
  | some _ => none
  | none =>
    match a with
    | Action.fire => some { s with tickReady := true }
    | Action.deliver sig =>
      match s.sigPending with
      | none => some { s with sigPending := some sig }
      | some _ => some s
    | Action.select arm => loopStep env ntfyTopic arm s

/-- Run a schedule; an action that is not enabled is skipped. -/
def run (env : Env) (ntfyTopic : String) : List Action → LoopState → LoopState
  | [], s => s
  | a :: sched, s =>
    match step env ntfyTopic a s with
    | some s' => run env ntfyTopic sched s'
    | none => run env ntfyTopic sched s

/-- The result of `os.Getenv`: the empty string when the variable is unset. -/
def Getenv (environ : String → Option String) (key : String) : String :=
  (environ key).getD ""

/-- The program: start-up validation, then the run loop under a schedule.
`log.Fatal` writes its line and ends the process with status 1. -/
def main (environ : String → Option String) (env : Env) (sched : List Action) :
    LoopState :=
  let h := [Event.log "EC2 Interruption Monitor starting..."]
  let ntfyTopic := Getenv environ "NTFY_TOPIC"
  if ntfyTopic = "" then
    { tickReady := false
      sigPending := none
      trace := h ++ [Event.log "NTFY_TOPIC environment variable is not set"]
      exited := some 1 }
  else
    run env ntfyTopic sched
      { tickReady := false
        sigPending := none
        trace := h ++ [Event.log ("Using ntfy topic: " ++ ntfyTopic)]
        exited := none }

/-! ## Concrete environments used to evaluate the program -/

/-- The interruption notice body of the example scenario. -/
def noticeBody : String :=
  "\x7b\"action\":\"terminate\",\"time\":\"2024-01-01T00:00:00Z\"\x7d"

/-- The record the body above decodes to. -/
def sampleNotice : SpotInterruptionNotice :=
  { Action := "terminate", Time := { text := "2024-01-01 00:00:00 +0000 UTC" } }

/-- An environment in which the token endpoint answers `AQAEA`, the
interruption endpoint answers with the given status and body, the rebalance
endpoint answers 404 and the webhook answers with the given status and body. -/
def sampleEnv (metaStatus : Int) (metaBody : String) (hookStatus : Int)
    (hookBody : String) : Env :=
  { newRequest := fun _ url => Except.ok url
    doReq := fun _ req =>
      match req.method with
      | Method.PUT => Except.ok { StatusCode := 200, Body := { data := "AQAEA", readErr := none } }
      | Method.GET =>
        if req.url = interruptionURL then
          Except.ok { StatusCode := metaStatus, Body := { data := metaBody, readErr := none } }
        else
          Except.ok { StatusCode := 404, Body := { data := "", readErr := none } }
      | Method.POST =>
        Except.ok { StatusCode := hookStatus, Body := { data := hookBody, readErr := none } }
    decodeNotice := fun b =>
      if b.data = noticeBody then Except.ok sampleNotice
      else Except.error "invalid character"
    decodeRebalance := fun _ => Except.error "EOF" }

/-- An environment in which every request fails in the transport. -/
def offlineEnv : Env :=
  { newRequest := fun _ url => Except.ok url
    doReq := fun _ _ => Except.error "context deadline exceeded"
    decodeNotice := fun _ => Except.error "EOF"
    decodeRebalance := fun _ => Except.error "EOF" }

/-- An environment in which both metadata endpoints answer 200 with a body
that is not JSON, so that both decoders fail. -/
def garbledEnv : Env :=
  { newRequest := fun _ url => Except.ok url
    doReq := fun _ req =>
      match req.method with
      | Method.PUT => Except.ok { StatusCode := 200, Body := { data := "AQAEA", readErr := none } }
      | Method.GET => Except.ok { StatusCode := 200, Body := { data := "<html>", readErr := none } }
      | Method.POST => Except.ok { StatusCode := 200, Body := { data := "", readErr := none } }
    decodeNotice := fun _ => Except.error "invalid character"
    decodeRebalance := fun _ => Except.error "invalid character" }

/-- An environment whose `http.NewRequest` does what `net/url` does on two
topic URLs: the space of `https://ntfy.sh/a b` is written back as `%20`, and
`https://ntfy.sh/%zz` is refused for its invalid escape.  Every other URL is
taken unchanged, and the webhook answers 200. -/
def escapingEnv : Env :=
  { newRequest := fun _ url =>
      if url = "https://ntfy.sh/a b" then Except.ok "https://ntfy.sh/a%20b"
      else if url = "https://ntfy.sh/%zz" then
        Except.error "parse \"https://ntfy.sh/%zz\": invalid URL escape \"%zz\""
      else Except.ok url
    doReq := fun _ _ =>
      Except.ok { StatusCode := 200, Body := { data := "", readErr := none } }
    decodeNotice := fun _ => Except.error "EOF"
    decodeRebalance := fun _ => Except.error "EOF" }

/-- A process environment with `NTFY_TOPIC` set to the given value. -/
def environWith (topic : String) : String → Option String :=
  fun key => if key = "NTFY_TOPIC" then some topic else none

/-- A process environment with no variable set. -/
def environEmpty : String → Option String := fun _ => none

/-- A running loop state in which only the timer channel holds a value. -/
def tickOnly : LoopState :=
  { tickReady := true, sigPending := none, trace := [], exited := none }

/-- A running loop state in which only the signal channel holds a value. -/
def signalOnly : LoopState :=
  { tickReady := false, sigPending := some Signal.SIGINT, trace := [], exited := none }

/-- A loop state in which both channels hold a value. -/
def bothReady : LoopState :=
  { tickReady := true, sigPending := some Signal.SIGTERM, trace := [], exited := none }

/-! ## Basic lemmas on trace projections -/

@[simp] theorem logs_append (a b : Trace) : logs (a ++ b) = logs a ++ logs b := by
  induction a with
  | nil => rfl
  | cons e t ih => cases e <;> simp [logs, ih]

@[simp] theorem requests_append (a b : Trace) :
    requests (a ++ b) = requests a ++ requests b := by
  induction a with
  | nil => rfl
  | cons e t ih => cases e <;> simp [requests, ih]

@[simp] theorem sendCalls_append (a b : Trace) :
    sendCalls (a ++ b) = sendCalls a ++ sendCalls b := by
  induction a with
  | nil => rfl
  | cons e t ih => cases e <;> simp [sendCalls, ih]

@[simp] theorem checkCalls_append (a b : Trace) :
    checkCalls (a ++ b) = checkCalls a ++ checkCalls b := by
  induction a with
  | nil => rfl
  | cons e t ih => cases e <;> simp [checkCalls, ih]

@[simp] theorem tokenCalls_append (a b : Trace) :
    tokenCalls (a ++ b) = tokenCalls a + tokenCalls b := by
  induction a with
  | nil => simp [tokenCalls]
  | cons e t ih => cases e <;> simp [tokenCalls, ih]; omega

/-! ## SendNtfyNotification -/

/-- The error returned once the request has been built and sent. -/
theorem SendNtfyNotification_sent (env : Env) (h : Trace) (msg : NtfyMessage)
    (built : String) (resp : Response)
    (htopic : msg.Topic ≠ "")
    (hnew : env.newRequest Method.POST ("https://ntfy.sh/" ++ msg.Topic) = Except.ok built)
    (hdo : env.doReq (h ++ [Event.sendNtfy msg])
      (ntfyRequest built (marshalFields msg)) = Except.ok resp) :
    SendNtfyNotification env h msg =
      (h ++ [Event.sendNtfy msg, Event.request (ntfyRequest built (marshalFields msg))],
        if resp.StatusCode ≥ 400 then
          some ("error response from ntfy.sh: " ++ resp.Body.data ++ ", status code: "
            ++ fmtInt resp.StatusCode)
        else none) := by
  simp only [SendNtfyNotification, if_neg htopic, jsonMarshal, hnew, hdo]
  split <;> simp

/-- The error returned when the transport fails. -/
theorem SendNtfyNotification_transport (env : Env) (h : Trace) (msg : NtfyMessage)
    (built e : String)
    (htopic : msg.Topic ≠ "")
    (hnew : env.newRequest Method.POST ("https://ntfy.sh/" ++ msg.Topic) = Except.ok built)
    (hdo : env.doReq (h ++ [Event.sendNtfy msg])
      (ntfyRequest built (marshalFields msg)) = Except.error e) :
    SendNtfyNotification env h msg =
      (h ++ [Event.sendNtfy msg, Event.request (ntfyRequest built (marshalFields msg))],
        some ("error sending notification: " ++ e)) := by
  simp only [SendNtfyNotification, if_neg htopic, jsonMarshal, hnew, hdo]
  simp

/-- The error returned when the request cannot be built. -/
theorem SendNtfyNotification_unbuilt (env : Env) (h : Trace) (msg : NtfyMessage)
    (e : String)
    (htopic : msg.Topic ≠ "")
    (hnew : env.newRequest Method.POST ("https://ntfy.sh/" ++ msg.Topic) = Except.error e) :
    SendNtfyNotification env h msg =
      (h ++ [Event.sendNtfy msg], some ("error creating request: " ++ e)) := by
  simp only [SendNtfyNotification, if_neg htopic, jsonMarshal, hnew]

/-- This call only appends to the trace: its own entry, then at most the POST. -/
theorem SendNtfyNotification_trace (env : Env) (h : Trace) (msg : NtfyMessage) :
    ∃ evs, (SendNtfyNotification env h msg).1 = h ++ Event.sendNtfy msg :: evs
      ∧ logs evs = [] ∧ sendCalls evs = [] ∧ checkCalls evs = [] ∧ tokenCalls evs = 0
      ∧ ∀ r ∈ requests evs, r.method = Method.POST := by
  have hreq : ∀ built : String,
      ∀ r ∈ requests [Event.request (ntfyRequest built (marshalFields msg))],
        r.method = Method.POST := by
    intro built r hr
    simp [requests] at hr
    subst hr
    rfl
  by_cases htopic : msg.Topic = ""
  · exact ⟨[], by simp [SendNtfyNotification, htopic], rfl, rfl, rfl, rfl,
      by simp [requests]⟩
  · cases hnew : env.newRequest Method.POST ("https://ntfy.sh/" ++ msg.Topic) with
    | error e =>
      exact ⟨[], by simp [SendNtfyNotification_unbuilt env h msg e htopic hnew],
        rfl, rfl, rfl, rfl, by simp [requests]⟩
    | ok built =>
      cases hdo : env.doReq (h ++ [Event.sendNtfy msg])
          (ntfyRequest built (marshalFields msg)) with
      | error e =>
        exact ⟨[Event.request (ntfyRequest built (marshalFields msg))],
          by simp [SendNtfyNotification_transport env h msg built e htopic hnew hdo],
          rfl, rfl, rfl, rfl, hreq built⟩
      | ok resp =>
        exact ⟨[Event.request (ntfyRequest built (marshalFields msg))],
          by simp [SendNtfyNotification_sent env h msg built resp htopic hnew hdo],
          rfl, rfl, rfl, rfl, hreq built⟩

/-- C3: for every message whose Topic is empty, SendNtfyNotification returns
the error "topic cannot be empty", adds nothing to the trace but its own
entry (no request is sent), and its outcome is the same in every
environment (no request is built, nothing of the network is consulted). -/
theorem C3_empty_topic_rejected (env : Env) (h : Trace) (msg : NtfyMessage)
    (htopic : msg.Topic = "") :
    (SendNtfyNotification env h msg).2 = some "topic cannot be empty"
      ∧ (SendNtfyNotification env h msg).1 = h ++ [Event.sendNtfy msg]
      ∧ requests (SendNtfyNotification env h msg).1 = requests h
      ∧ ∀ env2 : Env, SendNtfyNotification env2 h msg = SendNtfyNotification env h msg := by
  simp [SendNtfyNotification, htopic, requests]

theorem C3_empty_topic_rejected_witness :
    (SendNtfyNotification (sampleEnv 200 noticeBody 200 "") []
        { Topic := "", Message := "hello" }).2 = some "topic cannot be empty"
      ∧ (SendNtfyNotification (sampleEnv 200 noticeBody 200 "") []
        { Topic := "", Message := "hello" }).1
          = [] ++ [Event.sendNtfy { Topic := "", Message := "hello" }]
      ∧ requests (SendNtfyNotification (sampleEnv 200 noticeBody 200 "") []
        { Topic := "", Message := "hello" }).1 = requests []
      ∧ ∀ env2 : Env, SendNtfyNotification env2 [] { Topic := "", Message := "hello" }
          = SendNtfyNotification (sampleEnv 200 noticeBody 200 "") []
              { Topic := "", Message := "hello" } :=
  C3_empty_topic_rejected (sampleEnv 200 noticeBody 200 "") []
    { Topic := "", Message := "hello" } rfl

/-- C4: for every message with a non-empty topic, when the POST completes with
a response whose status code is at least 400, SendNtfyNotification returns a
non-nil error whose text contains the response body and the decimal status
code. -/
theorem C4_error_status_reported (env : Env) (h : Trace) (msg : NtfyMessage)
    (built : String) (resp : Response)
    (htopic : msg.Topic ≠ "")
    (hnew : env.newRequest Method.POST ("https://ntfy.sh/" ++ msg.Topic) = Except.ok built)
    (hdo : env.doReq (h ++ [Event.sendNtfy msg])
      (ntfyRequest built (marshalFields msg)) = Except.ok resp)
    (hstatus : resp.StatusCode ≥ 400) :
    ∃ e, (SendNtfyNotification env h msg).2 = some e
      ∧ Contains e resp.Body.data ∧ Contains e (fmtInt resp.StatusCode) := by
  rw [SendNtfyNotification_sent env h msg built resp htopic hnew hdo, if_pos hstatus]
  refine ⟨_, rfl, ?_, ?_⟩
  · exact ⟨"error response from ntfy.sh: ", ", status code: " ++ fmtInt resp.StatusCode,
      by simp [String.append_assoc]⟩
  · exact ⟨"error response from ntfy.sh: " ++ resp.Body.data ++ ", status code: ", "",
      by simp⟩

theorem C4_error_status_reported_witness :
    ∃ e, (SendNtfyNotification (sampleEnv 200 noticeBody 503 "try again later") []
        (interruptionMessage "alerts")).2 = some e
      ∧ Contains e ({ data := "try again later", readErr := none } : Body).data
      ∧ Contains e (fmtInt 503) :=
  C4_error_status_reported (sampleEnv 200 noticeBody 503 "try again later") []
    (interruptionMessage "alerts") "https://ntfy.sh/alerts"
    { StatusCode := 503, Body := { data := "try again later", readErr := none } }
    (by decide) rfl rfl (by decide)

/-- C5 (counterexample): the webhook answers 302, a status outside 200-299,
and SendNtfyNotification returns nil. -/
theorem C5_redirect_status_returns_nil :
    (sampleEnv 200 noticeBody 302 "").doReq
        [Event.sendNtfy (interruptionMessage "alerts")]
        (ntfyRequest "https://ntfy.sh/alerts" (marshalFields (interruptionMessage "alerts")))
      = Except.ok { StatusCode := 302, Body := { data := "", readErr := none } }
    ∧ ¬ ((200 : Int) ≤ 302 ∧ (302 : Int) ≤ 299)
    ∧ (interruptionMessage "alerts").Topic ≠ ""
    ∧ (SendNtfyNotification (sampleEnv 200 noticeBody 302 "") []
        (interruptionMessage "alerts")).2 = none :=
  ⟨rfl, by decide, by decide, by decide⟩

/-- C5 (amended): for every message with a non-empty topic,
SendNtfyNotification returns nil exactly when the request is built and the
POST completes with a status code below 400; it returns a non-nil error when
the request cannot be built, when the transport fails, and when the status
code is 400 or more. -/
theorem C5_nil_iff_status_below_400 (env : Env) (h : Trace) (msg : NtfyMessage)
    (htopic : msg.Topic ≠ "") :
    (SendNtfyNotification env h msg).2 = none ↔
      ∃ built, env.newRequest Method.POST ("https://ntfy.sh/" ++ msg.Topic) = Except.ok built
        ∧ ∃ resp, env.doReq (h ++ [Event.sendNtfy msg])
              (ntfyRequest built (marshalFields msg)) = Except.ok resp
            ∧ resp.StatusCode < 400 := by
  cases hnew : env.newRequest Method.POST ("https://ntfy.sh/" ++ msg.Topic) with
  | error e => simp [SendNtfyNotification_unbuilt env h msg e htopic hnew]
  | ok built =>
    cases hdo : env.doReq (h ++ [Event.sendNtfy msg])
        (ntfyRequest built (marshalFields msg)) with
    | error e =>
      rw [SendNtfyNotification_transport env h msg built e htopic hnew hdo]
      constructor
      · intro hc
        simp at hc
      · rintro ⟨b, hb, resp, hresp, _⟩
        simp only [Except.ok.injEq] at hb
        subst hb
        rw [hdo] at hresp
        simp at hresp
    | ok resp =>
      rw [SendNtfyNotification_sent env h msg built resp htopic hnew hdo]
      constructor
      · intro hc
        refine ⟨built, rfl, resp, hdo, ?_⟩
        by_cases hs : resp.StatusCode ≥ 400
        · simp [hs] at hc
        · omega
      · rintro ⟨b, hb, r, hr, hlt⟩
        simp only [Except.ok.injEq] at hb
        subst hb
        rw [hdo] at hr
        simp only [Except.ok.injEq] at hr
        subst hr
        have hs : ¬ resp.StatusCode ≥ 400 := by omega
        simp [hs]

theorem C5_nil_iff_status_below_400_witness :
    (SendNtfyNotification (sampleEnv 200 noticeBody 302 "") []
        (interruptionMessage "alerts")).2 = none ↔
      ∃ built, (sampleEnv 200 noticeBody 302 "").newRequest Method.POST
          ("https://ntfy.sh/" ++ (interruptionMessage "alerts").Topic) = Except.ok built
        ∧ ∃ resp, (sampleEnv 200 noticeBody 302 "").doReq
              ([] ++ [Event.sendNtfy (interruptionMessage "alerts")])
              (ntfyRequest built (marshalFields (interruptionMessage "alerts")))
              = Except.ok resp
            ∧ resp.StatusCode < 400 :=
  C5_nil_iff_status_below_400 (sampleEnv 200 noticeBody 302 "") []
    (interruptionMessage "alerts") (by decide)

/-! ### The body of the POST -/

theorem keys_append (a b : JsonObject) : keys (a ++ b) = keys a ++ keys b := by
  simp [keys]

theorem mem_keys_omitEmptyStr (k key v : String) :
    k ∈ keys (omitEmptyStr key v) ↔ v ≠ "" ∧ k = key := by
  unfold omitEmptyStr keys
  split <;> simp_all

/-- Membership of a name among the keys that `json.Marshal` writes. -/
theorem mem_keys_marshalFields (k : String) (msg : NtfyMessage) :
    k ∈ keys (marshalFields msg) ↔
      (msg.Title ≠ "" ∧ k = "title") ∨ k = "message"
        ∨ (msg.Priority ≠ 0 ∧ k = "priority")
        ∨ (msg.Tags ≠ "" ∧ k = "tags") ∨ (msg.Click ≠ "" ∧ k = "click")
        ∨ (msg.Actions ≠ "" ∧ k = "actions") ∨ (msg.Email ≠ "" ∧ k = "email")
        ∨ (msg.Delay ≠ "" ∧ k = "delay") ∨ (msg.Icon ≠ "" ∧ k = "icon")
        ∨ (msg.Markdown = true ∧ k = "markdown") := by
  have hp : k ∈ keys (if msg.Priority = 0 then []
      else [("priority", JsonValue.num msg.Priority)]) ↔ msg.Priority ≠ 0 ∧ k = "priority" := by
    unfold keys
    split <;> simp_all
  have hm : k ∈ keys (if msg.Markdown = false then []
      else [("markdown", JsonValue.bool msg.Markdown)]) ↔ msg.Markdown = true ∧ k = "markdown" := by
    unfold keys
    split <;> simp_all
  have hmsg : k ∈ keys [("message", JsonValue.str msg.Message)] ↔ k = "message" := by
    simp [keys]
  unfold marshalFields
  simp only [keys_append, List.mem_append, mem_keys_omitEmptyStr, hp, hm, hmsg, or_assoc]

/-- C10 (counterexample): three messages with a non-empty topic.  With an
empty Title the body of the POST is the single member "message": the key
"title" is missing.  With the topic "a b" the request is built and posted to
"https://ntfy.sh/a%20b", which is not "https://ntfy.sh/" followed by the
topic.  With the topic "%zz" the request cannot be built: an error is
returned and no POST is issued. -/
theorem C10_title_omitted_url_encoded_or_unbuilt :
    (({ Topic := "alerts", Message := "disk full" } : NtfyMessage).Topic ≠ ""
      ∧ requests (SendNtfyNotification (sampleEnv 200 noticeBody 200 "") []
          { Topic := "alerts", Message := "disk full" }).1
        = [{ method := Method.POST
             url := "https://ntfy.sh/alerts"
             headers := [("Content-Type", "application/json")]
             body := some [("message", JsonValue.str "disk full")] }]
      ∧ "title" ∉ keys [("message", JsonValue.str "disk full")])
    ∧ (({ Topic := "a b", Title := "t", Message := "m" } : NtfyMessage).Topic ≠ ""
      ∧ (requests (SendNtfyNotification escapingEnv []
          { Topic := "a b", Title := "t", Message := "m" }).1).map (fun r => r.url)
        = ["https://ntfy.sh/a%20b"]
      ∧ "https://ntfy.sh/a%20b" ≠ "https://ntfy.sh/" ++ "a b")
    ∧ (({ Topic := "%zz", Title := "t", Message := "m" } : NtfyMessage).Topic ≠ ""
      ∧ requests (SendNtfyNotification escapingEnv []
          { Topic := "%zz", Title := "t", Message := "m" }).1 = []
      ∧ (SendNtfyNotification escapingEnv []
          { Topic := "%zz", Title := "t", Message := "m" }).2
        = some ("error creating request: "
            ++ "parse \"https://ntfy.sh/%zz\": invalid URL escape \"%zz\"")) := by
  decide

/-- C10 (amended): for every message with a non-empty topic,
SendNtfyNotification builds its request with http.NewRequest from
"https://ntfy.sh/" followed by the topic.  When that fails it returns the
error and hands no request to the client.  Otherwise it hands exactly one
request to the client: a POST to the URL of the built request (that string as
parsed and written back), whose JSON body always has the key "message", has
"title" exactly when Title is non-empty, has each of "priority", "tags",
"click", "actions", "email", "delay", "icon", "markdown" exactly when the
corresponding field is non-zero, never has a key "topic", and is the same
whatever the topic is. -/
theorem C10_post_url_and_body (env : Env) (h : Trace) (msg : NtfyMessage)
    (htopic : msg.Topic ≠ "") :
    (∀ e, env.newRequest Method.POST ("https://ntfy.sh/" ++ msg.Topic) = Except.error e →
      SendNtfyNotification env h msg
          = (h ++ [Event.sendNtfy msg], some ("error creating request: " ++ e))
        ∧ requests (SendNtfyNotification env h msg).1 = requests h)
    ∧ ∃ payload : JsonObject,
      (∀ built,
        env.newRequest Method.POST ("https://ntfy.sh/" ++ msg.Topic) = Except.ok built →
        requests (SendNtfyNotification env h msg).1 = requests h ++
          [{ method := Method.POST
             url := built
             headers := [("Content-Type", "application/json")]
             body := some payload }])
      ∧ "message" ∈ keys payload
      ∧ ("title" ∈ keys payload ↔ msg.Title ≠ "")
      ∧ ("priority" ∈ keys payload ↔ msg.Priority ≠ 0)
      ∧ ("tags" ∈ keys payload ↔ msg.Tags ≠ "")
      ∧ ("click" ∈ keys payload ↔ msg.Click ≠ "")
      ∧ ("actions" ∈ keys payload ↔ msg.Actions ≠ "")
      ∧ ("email" ∈ keys payload ↔ msg.Email ≠ "")
      ∧ ("delay" ∈ keys payload ↔ msg.Delay ≠ "")
      ∧ ("icon" ∈ keys payload ↔ msg.Icon ≠ "")
      ∧ ("markdown" ∈ keys payload ↔ msg.Markdown = true)
      ∧ "topic" ∉ keys payload
      ∧ ∀ topic2 : String, marshalFields { msg with Topic := topic2 } = payload := by
  refine ⟨?_, marshalFields msg, ?_, ?_⟩
  · intro e hnew
    have hres := SendNtfyNotification_unbuilt env h msg e htopic hnew
    exact ⟨hres, by simp [hres, requests]⟩
  · intro built hnew
    cases hdo : env.doReq (h ++ [Event.sendNtfy msg])
        (ntfyRequest built (marshalFields msg)) with
    | error e =>
      rw [SendNtfyNotification_transport env h msg built e htopic hnew hdo]
      simp [requests, ntfyRequest]
    | ok resp =>
      rw [SendNtfyNotification_sent env h msg built resp htopic hnew hdo]
      simp [requests, ntfyRequest]
  · simp only [mem_keys_marshalFields]
    refine ⟨?_, ?_, ?_, ?_, ?_, ?_, ?_, ?_, ?_, ?_, ?_, ?_⟩
    all_goals first
      | (intro topic2; rfl)
      | simp +decide

/-! ## checkMetadata -/

/-- The notifier call and the caller's error check only append: the entry into
`SendNtfyNotification`, then at most a POST and at most one log line. -/
theorem notifyAndLog_trace (env : Env) (h : Trace) (msg : NtfyMessage) :
    ∃ evs, notifyAndLog env h msg = h ++ Event.sendNtfy msg :: evs
      ∧ sendCalls evs = [] ∧ checkCalls evs = [] ∧ tokenCalls evs = 0
      ∧ ∀ r ∈ requests evs, r.method = Method.POST := by
  obtain ⟨evs, htr, _, hs, hc, ht, hr⟩ := SendNtfyNotification_trace env h msg
  unfold notifyAndLog
  split
  · next h2 e heq =>
    rw [heq] at htr
    simp only at htr
    subst htr
    exact ⟨evs ++ [Event.log ("Failed to send ntfy notification: " ++ e)],
      by simp, by simp [hs, sendCalls], by simp [hc, checkCalls],
      by simp [ht, tokenCalls], by simpa [requests] using hr⟩
  · next h2 heq =>
    rw [heq] at htr
    simp only at htr
    subst htr
    exact ⟨evs, rfl, hs, hc, ht, hr⟩

/-- The interruption block when the GET fails or answers another status than 200. -/
theorem checkInterruption_absent (env : Env) (h : Trace) (token ntfyTopic : String)
    (hget : (∃ e, env.doReq h (metadataRequest interruptionURL token) = Except.error e)
      ∨ ∃ resp, env.doReq h (metadataRequest interruptionURL token) = Except.ok resp
          ∧ resp.StatusCode ≠ 200) :
    ∃ line, checkInterruption env h token ntfyTopic
      = h ++ [Event.request (metadataRequest interruptionURL token), Event.log line] := by
  unfold checkInterruption
  rcases hget with ⟨e, he⟩ | ⟨resp, hr, hs⟩
  · simp [he]
  · simp [hr, hs]

/-- The interruption block when the GET answers 200 and the body does not decode. -/
theorem checkInterruption_undecodable (env : Env) (h : Trace) (token ntfyTopic : String)
    (resp : Response) (e : String)
    (hget : env.doReq h (metadataRequest interruptionURL token) = Except.ok resp)
    (hstatus : resp.StatusCode = 200)
    (hdec : env.decodeNotice resp.Body = Except.error e) :
    checkInterruption env h token ntfyTopic
      = h ++ [Event.request (metadataRequest interruptionURL token)] := by
  unfold checkInterruption
  simp [hget, hstatus, hdec]

/-- The interruption block when the GET answers 200 and the body decodes. -/
theorem checkInterruption_detected (env : Env) (h : Trace) (token ntfyTopic : String)
    (resp : Response) (notice : SpotInterruptionNotice)
    (hget : env.doReq h (metadataRequest interruptionURL token) = Except.ok resp)
    (hstatus : resp.StatusCode = 200)
    (hdec : env.decodeNotice resp.Body = Except.ok notice) :
    checkInterruption env h token ntfyTopic
      = notifyAndLog env
          (h ++ [Event.request (metadataRequest interruptionURL token),
                 Event.log (interruptionLine notice)])
          (interruptionMessage ntfyTopic) := by
  unfold checkInterruption
  simp [hget, hstatus, hdec]

/-- The rebalance block when the GET fails or answers another status than 200. -/
theorem checkRebalance_absent (env : Env) (h : Trace) (token ntfyTopic : String)
    (hget : (∃ e, env.doReq h (metadataRequest rebalanceURL token) = Except.error e)
      ∨ ∃ resp, env.doReq h (metadataRequest rebalanceURL token) = Except.ok resp
          ∧ resp.StatusCode ≠ 200) :
    ∃ line, checkRebalance env h token ntfyTopic
      = h ++ [Event.request (metadataRequest rebalanceURL token), Event.log line] := by
  unfold checkRebalance
  rcases hget with ⟨e, he⟩ | ⟨resp, hr, hs⟩
  · simp [he]
  · simp [hr, hs]

/-- The rebalance block when the GET answers 200 and the body does not decode. -/
theorem checkRebalance_undecodable (env : Env) (h : Trace) (token ntfyTopic : String)
    (resp : Response) (e : String)
    (hget : env.doReq h (metadataRequest rebalanceURL token) = Except.ok resp)
    (hstatus : resp.StatusCode = 200)
    (hdec : env.decodeRebalance resp.Body = Except.error e) :
    checkRebalance env h token ntfyTopic
      = h ++ [Event.request (metadataRequest rebalanceURL token)] := by
  unfold checkRebalance
  simp [hget, hstatus, hdec]

/-- The interruption block only appends: its GET, then at most one notifier
call (for the interruption message) with at most a POST. -/
theorem checkInterruption_trace (env : Env) (h : Trace) (token ntfyTopic : String) :
    ∃ evs, checkInterruption env h token ntfyTopic
        = h ++ Event.request (metadataRequest interruptionURL token) :: evs
      ∧ (sendCalls evs = [] ∨ sendCalls evs = [interruptionMessage ntfyTopic])
      ∧ checkCalls evs = [] ∧ tokenCalls evs = 0
      ∧ ∀ r ∈ requests evs, r.method = Method.POST := by
  cases hget : env.doReq h (metadataRequest interruptionURL token) with
  | error e =>
    obtain ⟨line, hl⟩ := checkInterruption_absent env h token ntfyTopic (Or.inl ⟨e, hget⟩)
    exact ⟨[Event.log line], by simp [hl], Or.inl rfl, rfl, rfl, by simp [requests]⟩
  | ok resp =>
    by_cases hs : resp.StatusCode = 200
    · cases hdec : env.decodeNotice resp.Body with
      | error e =>
        exact ⟨[], by simp [checkInterruption_undecodable env h token ntfyTopic resp e hget hs hdec],
          Or.inl rfl, rfl, rfl, by simp [requests]⟩
      | ok notice =>
        obtain ⟨evs, htr, hsc, hc, ht, hr⟩ := notifyAndLog_trace env
          (h ++ [Event.request (metadataRequest interruptionURL token),
                 Event.log (interruptionLine notice)]) (interruptionMessage ntfyTopic)
        refine ⟨Event.log (interruptionLine notice)
          :: Event.sendNtfy (interruptionMessage ntfyTopic) :: evs, ?_, ?_, ?_, ?_, ?_⟩
        · rw [checkInterruption_detected env h token ntfyTopic resp notice hget hs hdec, htr]
          simp
        · exact Or.inr (by simp [sendCalls, hsc])
        · simp [checkCalls, hc]
        · simp [tokenCalls, ht]
        · simpa [requests] using hr
    · obtain ⟨line, hl⟩ := checkInterruption_absent env h token ntfyTopic
        (Or.inr ⟨resp, hget, hs⟩)
      exact ⟨[Event.log line], by simp [hl], Or.inl rfl, rfl, rfl, by simp [requests]⟩

/-- The rebalance block only appends: its GET, then at most one notifier call
(for the rebalance message) with at most a POST. -/
theorem checkRebalance_trace (env : Env) (h : Trace) (token ntfyTopic : String) :
    ∃ evs, checkRebalance env h token ntfyTopic
        = h ++ Event.request (metadataRequest rebalanceURL token) :: evs
      ∧ (sendCalls evs = [] ∨ sendCalls evs = [rebalanceMessage ntfyTopic])
      ∧ checkCalls evs = [] ∧ tokenCalls evs = 0
      ∧ ∀ r ∈ requests evs, r.method = Method.POST := by
  cases hget : env.doReq h (metadataRequest rebalanceURL token) with
  | error e =>
    obtain ⟨line, hl⟩ := checkRebalance_absent env h token ntfyTopic (Or.inl ⟨e, hget⟩)
    exact ⟨[Event.log line], by simp [hl], Or.inl rfl, rfl, rfl, by simp [requests]⟩
  | ok resp =>
    by_cases hs : resp.StatusCode = 200
    · cases hdec : env.decodeRebalance resp.Body with
      | error e =>
        exact ⟨[], by simp [checkRebalance_undecodable env h token ntfyTopic resp e hget hs hdec],
          Or.inl rfl, rfl, rfl, by simp [requests]⟩
      | ok rebalance =>
        obtain ⟨evs, htr, hsc, hc, ht, hr⟩ := notifyAndLog_trace env
          (h ++ [Event.request (metadataRequest rebalanceURL token),
                 Event.log (rebalanceLine rebalance)]) (rebalanceMessage ntfyTopic)
        refine ⟨Event.log (rebalanceLine rebalance)
          :: Event.sendNtfy (rebalanceMessage ntfyTopic) :: evs, ?_, ?_, ?_, ?_, ?_⟩
        · unfold checkRebalance
          simp [hget, hs, hdec, htr]
        · exact Or.inr (by simp [sendCalls, hsc])
        · simp [checkCalls, hc]
        · simp [tokenCalls, ht]
        · simpa [requests] using hr
    · obtain ⟨line, hl⟩ := checkRebalance_absent env h token ntfyTopic
        (Or.inr ⟨resp, hget, hs⟩)
      exact ⟨[Event.log line], by simp [hl], Or.inl rfl, rfl, rfl, by simp [requests]⟩

theorem rebalanceMessage_ne_interruptionMessage (ntfyTopic : String) :
    rebalanceMessage ntfyTopic ≠ interruptionMessage ntfyTopic := by
  intro hEq
  have ht : (rebalanceMessage ntfyTopic).Title = (interruptionMessage ntfyTopic).Title := by
    rw [hEq]
  have hne : "EC2 Rebalance Recommendation" ≠ "EC2 Spot Instance Interruption" := by decide
  exact hne ht

/-- The notifier call when the webhook answers with a status below 400:
nothing is logged by the caller. -/
theorem notifyAndLog_delivered (env : Env) (h : Trace) (msg : NtfyMessage)
    (built : String) (resp : Response)
    (htopic : msg.Topic ≠ "")
    (hnew : env.newRequest Method.POST ("https://ntfy.sh/" ++ msg.Topic) = Except.ok built)
    (hdo : env.doReq (h ++ [Event.sendNtfy msg])
      (ntfyRequest built (marshalFields msg)) = Except.ok resp)
    (hstatus : resp.StatusCode < 400) :
    notifyAndLog env h msg
      = h ++ [Event.sendNtfy msg, Event.request (ntfyRequest built (marshalFields msg))] := by
  unfold notifyAndLog
  rw [SendNtfyNotification_sent env h msg built resp htopic hnew hdo]
  have hs : ¬ resp.StatusCode ≥ 400 := by omega
  simp [hs]

/-- C1: in checkMetadata, for every token and non-empty topic, when the GET to
the interruption endpoint answers 200 and the body decodes, the trace of the
call is: the GET, the detection log line, then the entry into
SendNtfyNotification with Topic the configured topic and the fixed Title,
Message and Tags, then the events of that notification (no further notifier
entry among them) and then the rebalance block, which never sends the
interruption message: the notifier is invoked exactly once for the
interruption endpoint.  When the webhook answers 200 the only event of the
notification is its POST: nothing is logged for it. -/
theorem C1_interruption_detected_notifies (env : Env) (h : Trace)
    (token ntfyTopic : String) (resp : Response) (notice : SpotInterruptionNotice)
    (htopic : ntfyTopic ≠ "")
    (hget : env.doReq (h ++ [Event.checkMeta token ntfyTopic])
      (metadataRequest interruptionURL token) = Except.ok resp)
    (hstatus : resp.StatusCode = 200)
    (hdec : env.decodeNotice resp.Body = Except.ok notice) :
    ∃ evs rest : Trace,
      checkMetadata env h token ntfyTopic
        = h ++ [Event.checkMeta token ntfyTopic,
                Event.request (metadataRequest interruptionURL token),
                Event.log ("SPOT INTERRUPTION NOTICE: Action: " ++ notice.Action
                  ++ ", Time: " ++ notice.Time.text),
                Event.sendNtfy
                  { Topic := ntfyTopic
                    Title := "EC2 Spot Instance Interruption"
                    Message := "Spot instance interruption notice received"
                    Tags := "info,cloud" }]
            ++ evs ++ rest
      ∧ checkInterruption env (h ++ [Event.checkMeta token ntfyTopic]) token ntfyTopic
        = h ++ [Event.checkMeta token ntfyTopic,
                Event.request (metadataRequest interruptionURL token),
                Event.log (interruptionLine notice),
                Event.sendNtfy (interruptionMessage ntfyTopic)]
            ++ evs
      ∧ sendCalls evs = []
      ∧ interruptionMessage ntfyTopic ∉ sendCalls rest
      ∧ ∀ (built : String) (hookResp : Response),
          env.newRequest Method.POST ("https://ntfy.sh/" ++ ntfyTopic) = Except.ok built →
          env.doReq (h ++ [Event.checkMeta token ntfyTopic,
                Event.request (metadataRequest interruptionURL token),
                Event.log (interruptionLine notice),
                Event.sendNtfy (interruptionMessage ntfyTopic)])
              (ntfyRequest built (marshalFields (interruptionMessage ntfyTopic)))
            = Except.ok hookResp →
          hookResp.StatusCode = 200 →
          evs = [Event.request
                  (ntfyRequest built (marshalFields (interruptionMessage ntfyTopic)))]
            ∧ logs evs = [] := by
  obtain ⟨evs, htr, hsc, _, _, _⟩ := notifyAndLog_trace env
    (h ++ [Event.checkMeta token ntfyTopic]
       ++ [Event.request (metadataRequest interruptionURL token),
           Event.log (interruptionLine notice)]) (interruptionMessage ntfyTopic)
  have hblock := checkInterruption_detected env (h ++ [Event.checkMeta token ntfyTopic])
    token ntfyTopic resp notice hget hstatus hdec
  rw [htr] at hblock
  obtain ⟨rest, hrest, hsr, _, _, _⟩ := checkRebalance_trace env
    (checkInterruption env (h ++ [Event.checkMeta token ntfyTopic]) token ntfyTopic)
    token ntfyTopic
  refine ⟨evs, Event.request (metadataRequest rebalanceURL token) :: rest, ?_, ?_, hsc, ?_, ?_⟩
  · show checkRebalance env
        (checkInterruption env (h ++ [Event.checkMeta token ntfyTopic]) token ntfyTopic)
        token ntfyTopic = _
    rw [hrest, hblock]
    simp [interruptionLine, interruptionMessage]
  · rw [hblock]
    simp
  · have hne := rebalanceMessage_ne_interruptionMessage ntfyTopic
    rcases hsr with hsr | hsr
    · simp [sendCalls, hsr]
    · simp only [sendCalls, hsr, List.mem_singleton]
      exact fun hEq => hne hEq.symm
  · intro built hookResp hnew hdo h200
    have hdel := notifyAndLog_delivered env
      (h ++ [Event.checkMeta token ntfyTopic]
        ++ [Event.request (metadataRequest interruptionURL token),
            Event.log (interruptionLine notice)])
      (interruptionMessage ntfyTopic) built hookResp htopic hnew
      (by simpa using hdo) (by omega)
    rw [htr] at hdel
    have hev : evs = [Event.request
        (ntfyRequest built (marshalFields (interruptionMessage ntfyTopic)))] := by
      simpa [interruptionMessage] using hdel
    exact ⟨hev, by rw [hev]; rfl⟩

theorem C1_interruption_detected_notifies_witness :
    ∃ evs rest : Trace,
      checkMetadata (sampleEnv 200 noticeBody 200 "") [] "AQAEA" "alerts"
        = [] ++ [Event.checkMeta "AQAEA" "alerts",
                Event.request (metadataRequest interruptionURL "AQAEA"),
                Event.log ("SPOT INTERRUPTION NOTICE: Action: " ++ sampleNotice.Action
                  ++ ", Time: " ++ sampleNotice.Time.text),
                Event.sendNtfy
                  { Topic := "alerts"
                    Title := "EC2 Spot Instance Interruption"
                    Message := "Spot instance interruption notice received"
                    Tags := "info,cloud" }]
            ++ evs ++ rest
      ∧ checkInterruption (sampleEnv 200 noticeBody 200 "")
          ([] ++ [Event.checkMeta "AQAEA" "alerts"]) "AQAEA" "alerts"
        = [] ++ [Event.checkMeta "AQAEA" "alerts",
                Event.request (metadataRequest interruptionURL "AQAEA"),
                Event.log (interruptionLine sampleNotice),
                Event.sendNtfy (interruptionMessage "alerts")]
            ++ evs
      ∧ sendCalls evs = []
      ∧ interruptionMessage "alerts" ∉ sendCalls rest
      ∧ ∀ (built : String) (hookResp : Response),
          (sampleEnv 200 noticeBody 200 "").newRequest Method.POST
            ("https://ntfy.sh/" ++ "alerts") = Except.ok built →
          (sampleEnv 200 noticeBody 200 "").doReq ([] ++ [Event.checkMeta "AQAEA" "alerts",
                Event.request (metadataRequest interruptionURL "AQAEA"),
                Event.log (interruptionLine sampleNotice),
                Event.sendNtfy (interruptionMessage "alerts")])
              (ntfyRequest built (marshalFields (interruptionMessage "alerts")))
            = Except.ok hookResp →
          hookResp.StatusCode = 200 →
          evs = [Event.request
                  (ntfyRequest built (marshalFields (interruptionMessage "alerts")))]
            ∧ logs evs = [] :=
  C1_interruption_detected_notifies (sampleEnv 200 noticeBody 200 "") [] "AQAEA" "alerts"
    { StatusCode := 200, Body := { data := noticeBody, readErr := none } } sampleNotice
    (by decide) rfl rfl rfl

/-! ### Both endpoints are read in every cycle -/

@[simp] theorem metadataGets_append (a b : Trace) :
    metadataGets (a ++ b) = metadataGets a ++ metadataGets b := by
  simp [metadataGets]

theorem metadataGets_of_post (evs : Trace)
    (hr : ∀ r ∈ requests evs, r.method = Method.POST) : metadataGets evs = [] := by
  unfold metadataGets
  rw [List.filter_eq_nil_iff]
  intro r hmem
  simp [hr r hmem]

/-- The GETs that one call of checkMetadata adds to the trace: the
interruption read, then the rebalance read, whatever the first one led to. -/
theorem checkMetadata_trace (env : Env) (h : Trace) (token ntfyTopic : String) :
    ∃ evs, checkMetadata env h token ntfyTopic
        = h ++ Event.checkMeta token ntfyTopic :: evs
      ∧ metadataGets evs
        = [metadataRequest interruptionURL token, metadataRequest rebalanceURL token]
      ∧ checkCalls evs = [] ∧ tokenCalls evs = 0
      ∧ ∀ m ∈ sendCalls evs, m.Topic = ntfyTopic := by
  obtain ⟨e1, h1, hs1, hc1, ht1, hr1⟩ := checkInterruption_trace env
    (h ++ [Event.checkMeta token ntfyTopic]) token ntfyTopic
  obtain ⟨e2, h2, hs2, hc2, ht2, hr2⟩ := checkRebalance_trace env
    (checkInterruption env (h ++ [Event.checkMeta token ntfyTopic]) token ntfyTopic)
    token ntfyTopic
  refine ⟨Event.request (metadataRequest interruptionURL token) :: e1
    ++ Event.request (metadataRequest rebalanceURL token) :: e2, ?_, ?_, ?_, ?_, ?_⟩
  · show checkRebalance env
        (checkInterruption env (h ++ [Event.checkMeta token ntfyTopic]) token ntfyTopic)
        token ntfyTopic = _
    rw [h2, h1]
    simp
  · have g1 := metadataGets_of_post e1 hr1
    have g2 := metadataGets_of_post e2 hr2
    have hsplit : Event.request (metadataRequest interruptionURL token) :: e1
        ++ Event.request (metadataRequest rebalanceURL token) :: e2
        = [Event.request (metadataRequest interruptionURL token)] ++ e1
          ++ ([Event.request (metadataRequest rebalanceURL token)] ++ e2) := by simp
    rw [hsplit]
    simp only [metadataGets_append, g1, g2]
    simp [metadataGets, requests, metadataRequest]
  · have hsplit : Event.request (metadataRequest interruptionURL token) :: e1
        ++ Event.request (metadataRequest rebalanceURL token) :: e2
        = [Event.request (metadataRequest interruptionURL token)] ++ e1
          ++ ([Event.request (metadataRequest rebalanceURL token)] ++ e2) := by simp
    rw [hsplit]
    simp [hc1, hc2, checkCalls]
  · have hsplit : Event.request (metadataRequest interruptionURL token) :: e1
        ++ Event.request (metadataRequest rebalanceURL token) :: e2
        = [Event.request (metadataRequest interruptionURL token)] ++ e1
          ++ ([Event.request (metadataRequest rebalanceURL token)] ++ e2) := by simp
    rw [hsplit]
    simp [ht1, ht2, tokenCalls]
  · have hsplit : Event.request (metadataRequest interruptionURL token) :: e1
        ++ Event.request (metadataRequest rebalanceURL token) :: e2
        = [Event.request (metadataRequest interruptionURL token)] ++ e1
          ++ ([Event.request (metadataRequest rebalanceURL token)] ++ e2) := by simp
    have hsend : sendCalls (Event.request (metadataRequest interruptionURL token) :: e1
        ++ Event.request (metadataRequest rebalanceURL token) :: e2)
        = sendCalls e1 ++ sendCalls e2 := by
      rw [hsplit]
      simp [sendCalls]
    intro m hm
    rw [hsend] at hm
    rcases List.mem_append.mp hm with hm | hm
    · rcases hs1 with hs | hs
      · simp [hs] at hm
      · rw [hs] at hm
        simp at hm
        rw [hm]
        rfl
    · rcases hs2 with hs | hs
      · simp [hs] at hm
      · rw [hs] at hm
        simp at hm
        rw [hm]
        rfl

/-- C2: for each of the two metadata endpoints, when its GET fails in the
transport or answers a status other than 200, the block for that endpoint
adds its GET and one log line to the trace and nothing else: no notifier
entry, no POST.  And in every call of checkMetadata, whatever the
interruption check led to, the GETs issued are exactly the interruption read
followed by the rebalance read. -/
theorem C2_absent_no_notification_both_checked (env : Env) (h : Trace)
    (token ntfyTopic : String) :
    (((∃ e, env.doReq h (metadataRequest interruptionURL token) = Except.error e)
        ∨ ∃ resp, env.doReq h (metadataRequest interruptionURL token) = Except.ok resp
            ∧ resp.StatusCode ≠ 200) →
      (∃ line, checkInterruption env h token ntfyTopic
          = h ++ [Event.request (metadataRequest interruptionURL token), Event.log line])
        ∧ sendCalls (checkInterruption env h token ntfyTopic) = sendCalls h
        ∧ requests (checkInterruption env h token ntfyTopic)
          = requests h ++ [metadataRequest interruptionURL token])
    ∧ (((∃ e, env.doReq h (metadataRequest rebalanceURL token) = Except.error e)
        ∨ ∃ resp, env.doReq h (metadataRequest rebalanceURL token) = Except.ok resp
            ∧ resp.StatusCode ≠ 200) →
      (∃ line, checkRebalance env h token ntfyTopic
          = h ++ [Event.request (metadataRequest rebalanceURL token), Event.log line])
        ∧ sendCalls (checkRebalance env h token ntfyTopic) = sendCalls h
        ∧ requests (checkRebalance env h token ntfyTopic)
          = requests h ++ [metadataRequest rebalanceURL token])
    ∧ ∃ evs, checkMetadata env h token ntfyTopic = h ++ evs
        ∧ metadataGets evs
          = [metadataRequest interruptionURL token, metadataRequest rebalanceURL token] := by
  refine ⟨?_, ?_, ?_⟩
  · intro hget
    obtain ⟨line, hl⟩ := checkInterruption_absent env h token ntfyTopic hget
    exact ⟨⟨line, hl⟩, by simp [hl, sendCalls], by simp [hl, requests]⟩
  · intro hget
    obtain ⟨line, hl⟩ := checkRebalance_absent env h token ntfyTopic hget
    exact ⟨⟨line, hl⟩, by simp [hl, sendCalls], by simp [hl, requests]⟩
  · obtain ⟨evs, htr, hg, _, _, _⟩ := checkMetadata_trace env h token ntfyTopic
    refine ⟨Event.checkMeta token ntfyTopic :: evs, htr, ?_⟩
    have hsplit : Event.checkMeta token ntfyTopic :: evs
        = [Event.checkMeta token ntfyTopic] ++ evs := rfl
    rw [hsplit, metadataGets_append, hg]
    rfl

theorem C2_absent_no_notification_both_checked_witness :
    ((∃ line, checkInterruption offlineEnv [] "AQAEA" "alerts"
          = [] ++ [Event.request (metadataRequest interruptionURL "AQAEA"), Event.log line])
        ∧ sendCalls (checkInterruption offlineEnv [] "AQAEA" "alerts") = sendCalls []
        ∧ requests (checkInterruption offlineEnv [] "AQAEA" "alerts")
          = requests [] ++ [metadataRequest interruptionURL "AQAEA"])
    ∧ ((∃ line, checkRebalance offlineEnv [] "AQAEA" "alerts"
          = [] ++ [Event.request (metadataRequest rebalanceURL "AQAEA"), Event.log line])
        ∧ sendCalls (checkRebalance offlineEnv [] "AQAEA" "alerts") = sendCalls []
        ∧ requests (checkRebalance offlineEnv [] "AQAEA" "alerts")
          = requests [] ++ [metadataRequest rebalanceURL "AQAEA"])
    ∧ ∃ evs, checkMetadata offlineEnv [] "AQAEA" "alerts" = [] ++ evs
        ∧ metadataGets evs
          = [metadataRequest interruptionURL "AQAEA", metadataRequest rebalanceURL "AQAEA"] :=
  ⟨(C2_absent_no_notification_both_checked offlineEnv [] "AQAEA" "alerts").1
      (Or.inl ⟨"context deadline exceeded", rfl⟩),
   (C2_absent_no_notification_both_checked offlineEnv [] "AQAEA" "alerts").2.1
      (Or.inl ⟨"context deadline exceeded", rfl⟩),
   (C2_absent_no_notification_both_checked offlineEnv [] "AQAEA" "alerts").2.2⟩

/-- C6 (counterexample): the interruption endpoint answers 200 with a body
that does not decode; the block adds its GET to the trace and no log line,
and the whole call of checkMetadata (the rebalance endpoint answers alike)
writes no log line at all. -/
theorem C6_decode_failure_not_logged :
    garbledEnv.doReq [] (metadataRequest interruptionURL "AQAEA")
      = Except.ok { StatusCode := 200, Body := { data := "<html>", readErr := none } }
    ∧ garbledEnv.decodeNotice { data := "<html>", readErr := none }
      = Except.error "invalid character"
    ∧ checkInterruption garbledEnv [] "AQAEA" "alerts"
      = [Event.request (metadataRequest interruptionURL "AQAEA")]
    ∧ logs (checkInterruption garbledEnv [] "AQAEA" "alerts") = []
    ∧ logs (checkMetadata garbledEnv [] "AQAEA" "alerts") = [] :=
  ⟨rfl, rfl, by decide, by decide, by decide⟩

/-- C6 (amended): for each metadata endpoint, when the GET answers 200 and the
body does not decode, the block for that endpoint adds its GET to the trace
and nothing else: no notification is sent for that endpoint and no log line
is written for it. -/
theorem C6_decode_failure_silent (env : Env) (h : Trace) (token ntfyTopic : String) :
    (∀ (resp : Response) (e : String),
      env.doReq h (metadataRequest interruptionURL token) = Except.ok resp →
      resp.StatusCode = 200 →
      env.decodeNotice resp.Body = Except.error e →
      checkInterruption env h token ntfyTopic
          = h ++ [Event.request (metadataRequest interruptionURL token)]
        ∧ sendCalls (checkInterruption env h token ntfyTopic) = sendCalls h
        ∧ logs (checkInterruption env h token ntfyTopic) = logs h)
    ∧ (∀ (resp : Response) (e : String),
      env.doReq h (metadataRequest rebalanceURL token) = Except.ok resp →
      resp.StatusCode = 200 →
      env.decodeRebalance resp.Body = Except.error e →
      checkRebalance env h token ntfyTopic
          = h ++ [Event.request (metadataRequest rebalanceURL token)]
        ∧ sendCalls (checkRebalance env h token ntfyTopic) = sendCalls h
        ∧ logs (checkRebalance env h token ntfyTopic) = logs h) := by
  constructor
  · intro resp e hget hs hdec
    have hb := checkInterruption_undecodable env h token ntfyTopic resp e hget hs hdec
    exact ⟨hb, by simp [hb, sendCalls], by simp [hb, logs]⟩
  · intro resp e hget hs hdec
    have hb := checkRebalance_undecodable env h token ntfyTopic resp e hget hs hdec
    exact ⟨hb, by simp [hb, sendCalls], by simp [hb, logs]⟩

theorem C6_decode_failure_silent_witness :
    (checkInterruption garbledEnv [] "AQAEA" "alerts"
          = [] ++ [Event.request (metadataRequest interruptionURL "AQAEA")]
        ∧ sendCalls (checkInterruption garbledEnv [] "AQAEA" "alerts") = sendCalls []
        ∧ logs (checkInterruption garbledEnv [] "AQAEA" "alerts") = logs [])
    ∧ (checkRebalance garbledEnv [] "AQAEA" "alerts"
          = [] ++ [Event.request (metadataRequest rebalanceURL "AQAEA")]
        ∧ sendCalls (checkRebalance garbledEnv [] "AQAEA" "alerts") = sendCalls []
        ∧ logs (checkRebalance garbledEnv [] "AQAEA" "alerts") = logs []) :=
  ⟨(C6_decode_failure_silent garbledEnv [] "AQAEA" "alerts").1
      { StatusCode := 200, Body := { data := "<html>", readErr := none } }
      "invalid character" rfl rfl rfl,
   (C6_decode_failure_silent garbledEnv [] "AQAEA" "alerts").2
      { StatusCode := 200, Body := { data := "<html>", readErr := none } }
      "invalid character" rfl rfl rfl⟩

theorem C10_post_url_and_body_witness :
    (SendNtfyNotification escapingEnv [] { Topic := "%zz", Title := "t", Message := "m" }
          = ([] ++ [Event.sendNtfy { Topic := "%zz", Title := "t", Message := "m" }],
              some ("error creating request: "
                ++ "parse \"https://ntfy.sh/%zz\": invalid URL escape \"%zz\""))
        ∧ requests (SendNtfyNotification escapingEnv []
            { Topic := "%zz", Title := "t", Message := "m" }).1 = requests [])
    ∧ ∃ payload : JsonObject,
      requests (SendNtfyNotification escapingEnv []
          { Topic := "a b", Title := "t", Message := "m" }).1 = requests [] ++
        [{ method := Method.POST
           url := "https://ntfy.sh/a%20b"
           headers := [("Content-Type", "application/json")]
           body := some payload }]
      ∧ "message" ∈ keys payload
      ∧ ("title" ∈ keys payload ↔ "t" ≠ "")
      ∧ "topic" ∉ keys payload :=
  ⟨(C10_post_url_and_body escapingEnv []
      { Topic := "%zz", Title := "t", Message := "m" } (by decide)).1
      "parse \"https://ntfy.sh/%zz\": invalid URL escape \"%zz\"" rfl,
   (C10_post_url_and_body escapingEnv []
      { Topic := "a b", Title := "t", Message := "m" } (by decide)).2.imp
     (fun _ hp => ⟨hp.1 "https://ntfy.sh/a%20b" rfl, hp.2.1, hp.2.2.1,
        hp.2.2.2.2.2.2.2.2.2.2.2.1⟩)⟩

/-! ## The run loop -/

/-- The token fetch when it fails: its entry, then at most the PUT. -/
theorem getIMDSToken_error (env : Env) (h : Trace) (e : String)
    (hres : (getIMDSToken env h).2 = Except.error e) :
    (getIMDSToken env h).1 = h ++ [Event.getToken]
      ∨ (getIMDSToken env h).1 = h ++ [Event.getToken, Event.request tokenRequest] := by
  cases hnew : env.newRequest Method.PUT tokenURL with
  | error e1 => exact Or.inl (by simp [getIMDSToken, hnew])
  | ok built =>
    cases hdo : env.doReq (h ++ [Event.getToken]) tokenRequest with
    | error e1 => exact Or.inr (by simp [getIMDSToken, hnew, hdo])
    | ok resp =>
      cases hread : resp.Body.readErr with
      | some e1 => exact Or.inr (by simp [getIMDSToken, hnew, hdo, hread])
      | none => simp [getIMDSToken, hnew, hdo, hread] at hres

/-- The token fetch when it succeeds: the token is the body of the response to
the PUT sent by this very call. -/
theorem getIMDSToken_ok (env : Env) (h : Trace) (token : String)
    (hres : (getIMDSToken env h).2 = Except.ok token) :
    (getIMDSToken env h).1 = h ++ [Event.getToken, Event.request tokenRequest]
      ∧ ∃ resp, env.doReq (h ++ [Event.getToken]) tokenRequest = Except.ok resp
          ∧ resp.Body.readErr = none ∧ resp.Body.data = token := by
  cases hnew : env.newRequest Method.PUT tokenURL with
  | error e1 => simp [getIMDSToken, hnew] at hres
  | ok built =>
    cases hdo : env.doReq (h ++ [Event.getToken]) tokenRequest with
    | error e1 => simp [getIMDSToken, hnew, hdo] at hres
    | ok resp =>
      cases hread : resp.Body.readErr with
      | some e1 => simp [getIMDSToken, hnew, hdo, hread] at hres
      | none =>
        simp only [getIMDSToken, hnew, hdo, hread, Except.ok.injEq] at hres
        exact ⟨by simp [getIMDSToken, hnew, hdo, hread], resp, rfl, hread, hres⟩

/-- The poll cycle when the token fetch fails. -/
theorem pollCycle_error (env : Env) (ntfyTopic : String) (h : Trace) (e : String)
    (hres : (getIMDSToken env h).2 = Except.error e) :
    pollCycle env ntfyTopic h
      = (getIMDSToken env h).1 ++ [Event.log ("Error getting IMDSv2 token: " ++ e)] := by
  unfold pollCycle
  split
  · next h2 e2 heq =>
    rw [heq] at hres
    simp only [Except.error.injEq] at hres
    rw [heq, hres]
  · next h2 t heq =>
    rw [heq] at hres
    simp at hres

/-- The poll cycle when the token fetch succeeds. -/
theorem pollCycle_ok (env : Env) (ntfyTopic : String) (h : Trace) (token : String)
    (hres : (getIMDSToken env h).2 = Except.ok token) :
    pollCycle env ntfyTopic h = checkMetadata env (getIMDSToken env h).1 token ntfyTopic := by
  unfold pollCycle
  split
  · next h2 e2 heq =>
    rw [heq] at hres
    simp at hres
  · next h2 t heq =>
    rw [heq] at hres
    simp only [Except.ok.injEq] at hres
    rw [heq, hres]

/-- A poll cycle only appends: one entry into getIMDSToken first, then no
other; every call of checkMetadata and of the notifier in it carries the
topic of the loop. -/
theorem pollCycle_trace (env : Env) (ntfyTopic : String) (h : Trace) :
    ∃ evs, pollCycle env ntfyTopic h = h ++ Event.getToken :: evs
      ∧ tokenCalls evs = 0
      ∧ (∀ c ∈ checkCalls evs, c.2 = ntfyTopic)
      ∧ ∀ m ∈ sendCalls evs, m.Topic = ntfyTopic := by
  cases hres : (getIMDSToken env h).2 with
  | error e =>
    rw [pollCycle_error env ntfyTopic h e hres]
    rcases getIMDSToken_error env h e hres with h1 | h1
    · exact ⟨[Event.log ("Error getting IMDSv2 token: " ++ e)], by simp [h1], rfl,
        by simp [checkCalls], by simp [sendCalls]⟩
    · exact ⟨[Event.request tokenRequest, Event.log ("Error getting IMDSv2 token: " ++ e)],
        by simp [h1], rfl, by simp [checkCalls], by simp [sendCalls]⟩
  | ok token =>
    rw [pollCycle_ok env ntfyTopic h token hres]
    obtain ⟨h1, _⟩ := getIMDSToken_ok env h token hres
    obtain ⟨evs, htr, _, hc, ht, hs⟩ := checkMetadata_trace env (getIMDSToken env h).1
      token ntfyTopic
    refine ⟨Event.request tokenRequest :: Event.checkMeta token ntfyTopic :: evs,
      ?_, ?_, ?_, ?_⟩
    · rw [htr, h1]
      simp
    · simp [tokenCalls, ht]
    · simp [checkCalls, hc]
    · simpa [sendCalls] using hs

/-- C7: whenever the loop is running and a tick is ready, the timer case runs:
it begins with one fresh call of getIMDSToken (the only one of the cycle, on
the history so far; the loop state carries no token) and leaves the loop
running, waiting again.  When the call returns an error, the error is logged
and the cycle issues no metadata GET, enters neither checkMetadata nor the
notifier.  When it returns a token, that token is the body of the response to
the PUT of this cycle, checkMetadata is entered exactly once, with exactly
that token, and both metadata reads carry it. -/
theorem C7_tick_fetches_fresh_token (env : Env) (ntfyTopic : String) (s : LoopState)
    (hrun : s.exited = none) (htick : s.tickReady = true) :
    ∃ (s' : LoopState) (evs : Trace),
      loopStep env ntfyTopic Arm.ticker s = some s'
      ∧ s'.exited = none ∧ s'.tickReady = false ∧ s'.sigPending = s.sigPending
      ∧ s'.trace = s.trace ++ Event.getToken :: evs
      ∧ tokenCalls evs = 0
      ∧ (∀ e, (getIMDSToken env s.trace).2 = Except.error e →
          logs evs = ["Error getting IMDSv2 token: " ++ e]
          ∧ metadataGets evs = [] ∧ sendCalls evs = [] ∧ checkCalls evs = [])
      ∧ (∀ token, (getIMDSToken env s.trace).2 = Except.ok token →
          (∃ resp, env.doReq (s.trace ++ [Event.getToken]) tokenRequest = Except.ok resp
            ∧ resp.Body.data = token)
          ∧ checkCalls evs = [(token, ntfyTopic)]
          ∧ s'.trace = checkMetadata env
              (s.trace ++ [Event.getToken, Event.request tokenRequest]) token ntfyTopic
          ∧ metadataGets evs
            = [metadataRequest interruptionURL token, metadataRequest rebalanceURL token]) := by
  have hstep : loopStep env ntfyTopic Arm.ticker s
      = some { s with tickReady := false, trace := pollCycle env ntfyTopic s.trace } := by
    simp [loopStep, hrun, htick]
  cases hres : (getIMDSToken env s.trace).2 with
  | error e =>
    have hp := pollCycle_error env ntfyTopic s.trace e hres
    rcases getIMDSToken_error env s.trace e hres with h1 | h1
    · refine ⟨_, [Event.log ("Error getting IMDSv2 token: " ++ e)], hstep, hrun, rfl, rfl,
        ?_, rfl, ?_, ?_⟩
      · simp [hp, h1]
      · intro e2 he2
        simp only [Except.error.injEq] at he2
        subst he2
        exact ⟨rfl, rfl, rfl, rfl⟩
      · intro token htok
        simp at htok
    · refine ⟨_, [Event.request tokenRequest,
          Event.log ("Error getting IMDSv2 token: " ++ e)], hstep, hrun, rfl, rfl,
        ?_, rfl, ?_, ?_⟩
      · simp [hp, h1]
      · intro e2 he2
        simp only [Except.error.injEq] at he2
        subst he2
        exact ⟨rfl, by simp [metadataGets, requests, tokenRequest], rfl, rfl⟩
      · intro token htok
        simp at htok
  | ok token =>
    have hp := pollCycle_ok env ntfyTopic s.trace token hres
    obtain ⟨h1, resp, hdo, _, hdata⟩ := getIMDSToken_ok env s.trace token hres
    obtain ⟨evs, htr, hg, hc, ht, _⟩ := checkMetadata_trace env (getIMDSToken env s.trace).1
      token ntfyTopic
    have hsplit : Event.request tokenRequest :: Event.checkMeta token ntfyTopic :: evs
        = [Event.request tokenRequest, Event.checkMeta token ntfyTopic] ++ evs := rfl
    refine ⟨_, Event.request tokenRequest :: Event.checkMeta token ntfyTopic :: evs,
      hstep, hrun, rfl, rfl, ?_, ?_, ?_, ?_⟩
    · show pollCycle env ntfyTopic s.trace = _
      rw [hp, htr, h1]
      simp
    · simp [tokenCalls, ht]
    · intro e he
      simp at he
    · intro token2 htok
      simp only [Except.ok.injEq] at htok
      subst htok
      refine ⟨⟨resp, hdo, hdata⟩, by simp [checkCalls, hc], ?_, ?_⟩
      · show pollCycle env ntfyTopic s.trace = _
        rw [hp, h1]
      · rw [hsplit, metadataGets_append, hg]
        rfl

theorem C7_tick_fetches_fresh_token_witness :
    ∃ (s' : LoopState) (evs : Trace),
      loopStep (sampleEnv 404 "" 200 "") "alerts" Arm.ticker tickOnly = some s'
      ∧ s'.exited = none ∧ s'.tickReady = false ∧ s'.sigPending = tickOnly.sigPending
      ∧ s'.trace = tickOnly.trace ++ Event.getToken :: evs
      ∧ tokenCalls evs = 0
      ∧ (∀ e, (getIMDSToken (sampleEnv 404 "" 200 "") tickOnly.trace).2 = Except.error e →
          logs evs = ["Error getting IMDSv2 token: " ++ e]
          ∧ metadataGets evs = [] ∧ sendCalls evs = [] ∧ checkCalls evs = [])
      ∧ (∀ token, (getIMDSToken (sampleEnv 404 "" 200 "") tickOnly.trace).2
            = Except.ok token →
          (∃ resp, (sampleEnv 404 "" 200 "").doReq (tickOnly.trace ++ [Event.getToken])
              tokenRequest = Except.ok resp
            ∧ resp.Body.data = token)
          ∧ checkCalls evs = [(token, "alerts")]
          ∧ s'.trace = checkMetadata (sampleEnv 404 "" 200 "")
              (tickOnly.trace ++ [Event.getToken, Event.request tokenRequest]) token "alerts"
          ∧ metadataGets evs
            = [metadataRequest interruptionURL token, metadataRequest rebalanceURL token]) :=
  C7_tick_fetches_fresh_token (sampleEnv 404 "" 200 "") "alerts" tickOnly rfl rfl

/-- C8 (counterexample): a termination signal is pending and the timer has
fired; the timer case of the select is enabled, and taking it runs a poll
cycle (token PUT and both metadata GETs) without exiting. -/
theorem C8_poll_cycle_with_signal_pending :
    bothReady.sigPending = some Signal.SIGTERM
    ∧ bothReady.exited = none
    ∧ (loopStep (sampleEnv 404 "" 200 "") "alerts" Arm.ticker bothReady).map
        (fun s => (s.exited, s.sigPending, tokenCalls s.trace, requests s.trace))
      = some (none, some Signal.SIGTERM, 1,
          [tokenRequest, metadataRequest interruptionURL "AQAEA",
           metadataRequest rebalanceURL "AQAEA"]) := by
  decide

/-- C8 (amended): once a termination signal is pending in the running loop,
the signal case of the select is enabled, and taking it logs the signal and
ends the process with status 0 without any token fetch, request or
notification, after which no step is possible.  When the timer has not fired
it is the only enabled case.  When the timer has also fired, the timer case
is enabled too, and taking it runs one poll cycle that leaves the loop
running with the signal still pending. -/
theorem C8_signal_exits_without_polling (env : Env) (ntfyTopic : String)
    (s : LoopState) (sig : Signal)
    (hrun : s.exited = none) (hsig : s.sigPending = some sig) :
    (∃ s', loopStep env ntfyTopic Arm.signal s = some s'
      ∧ s'.exited = some 0
      ∧ s'.trace = s.trace
          ++ [Event.log ("Received signal " ++ sig.text ++ ", shutting down")]
      ∧ tokenCalls s'.trace = tokenCalls s.trace
      ∧ requests s'.trace = requests s.trace
      ∧ sendCalls s'.trace = sendCalls s.trace
      ∧ checkCalls s'.trace = checkCalls s.trace
      ∧ ∀ a : Action, step env ntfyTopic a s' = none)
    ∧ (s.tickReady = false →
        ∀ arm s', loopStep env ntfyTopic arm s = some s' → arm = Arm.signal)
    ∧ (s.tickReady = true →
        ∃ s', loopStep env ntfyTopic Arm.ticker s = some s'
          ∧ s'.exited = none ∧ s'.sigPending = some sig ∧ s'.tickReady = false
          ∧ tokenCalls s'.trace = tokenCalls s.trace + 1) := by
  refine ⟨?_, ?_, ?_⟩
  · refine ⟨{ s with
        sigPending := none
        trace := s.trace ++ [Event.log ("Received signal " ++ sig.text ++ ", shutting down")]
        exited := some 0 }, ?_, rfl, rfl, ?_, ?_, ?_, ?_, ?_⟩
    · simp [loopStep, hrun, hsig]
    · simp [tokenCalls]
    · simp [requests]
    · simp [sendCalls]
    · simp [checkCalls]
    · intro a
      simp [step]
  · intro htick arm s' hstep
    cases arm with
    | signal => rfl
    | ticker => simp [loopStep, hrun, htick] at hstep
  · intro htick
    obtain ⟨evs, htr, ht, _, _⟩ := pollCycle_trace env ntfyTopic s.trace
    refine ⟨{ s with tickReady := false, trace := pollCycle env ntfyTopic s.trace },
      ?_, hrun, hsig, rfl, ?_⟩
    · simp [loopStep, hrun, htick]
    · show tokenCalls (pollCycle env ntfyTopic s.trace) = _
      rw [htr]
      have hsplit : Event.getToken :: evs = [Event.getToken] ++ evs := rfl
      rw [hsplit]
      simp [tokenCalls, ht]

theorem C8_signal_exits_without_polling_witness :
    (∃ s', loopStep (sampleEnv 404 "" 200 "") "alerts" Arm.signal bothReady = some s'
      ∧ s'.exited = some 0
      ∧ s'.trace = bothReady.trace
          ++ [Event.log ("Received signal " ++ Signal.SIGTERM.text ++ ", shutting down")]
      ∧ tokenCalls s'.trace = tokenCalls bothReady.trace
      ∧ requests s'.trace = requests bothReady.trace
      ∧ sendCalls s'.trace = sendCalls bothReady.trace
      ∧ checkCalls s'.trace = checkCalls bothReady.trace
      ∧ ∀ a : Action, step (sampleEnv 404 "" 200 "") "alerts" a s' = none)
    ∧ (bothReady.tickReady = false →
        ∀ arm s', loopStep (sampleEnv 404 "" 200 "") "alerts" arm bothReady = some s' →
          arm = Arm.signal)
    ∧ (bothReady.tickReady = true →
        ∃ s', loopStep (sampleEnv 404 "" 200 "") "alerts" Arm.ticker bothReady = some s'
          ∧ s'.exited = none ∧ s'.sigPending = some Signal.SIGTERM ∧ s'.tickReady = false
          ∧ tokenCalls s'.trace = tokenCalls bothReady.trace + 1) :=
  C8_signal_exits_without_polling (sampleEnv 404 "" 200 "") "alerts" bothReady
    Signal.SIGTERM rfl rfl

/-! ## main -/

/-- One step keeps every call of checkMetadata and of the notifier on the
topic of the loop. -/
theorem step_topic (env : Env) (ntfyTopic : String) (a : Action) (s s' : LoopState)
    (hstep : step env ntfyTopic a s = some s')
    (hinv : (∀ c ∈ checkCalls s.trace, c.2 = ntfyTopic)
      ∧ ∀ m ∈ sendCalls s.trace, m.Topic = ntfyTopic) :
    (∀ c ∈ checkCalls s'.trace, c.2 = ntfyTopic)
      ∧ ∀ m ∈ sendCalls s'.trace, m.Topic = ntfyTopic := by
  unfold step at hstep
  cases hex : s.exited with
  | some code => simp [hex] at hstep
  | none =>
    simp only [hex] at hstep
    cases a with
    | fire =>
      simp only [Option.some.injEq] at hstep
      subst hstep
      exact hinv
    | deliver sig =>
      cases hp : s.sigPending with
      | none =>
        simp only [hp, Option.some.injEq] at hstep
        subst hstep
        exact hinv
      | some sg =>
        simp only [hp, Option.some.injEq] at hstep
        subst hstep
        exact hinv
    | select arm =>
      simp only [loopStep, hex] at hstep
      cases arm with
      | ticker =>
        by_cases htick : s.tickReady = true
        · simp only [htick, if_true, Option.some.injEq] at hstep
          subst hstep
          obtain ⟨evs, htr, _, hc, hs⟩ := pollCycle_trace env ntfyTopic s.trace
          have hsplit : Event.getToken :: evs = [Event.getToken] ++ evs := rfl
          simp only [htr, hsplit, checkCalls_append, sendCalls_append, List.mem_append]
          constructor
          · intro c hcm
            rcases hcm with hcm | hcm
            · exact hinv.1 c hcm
            · simp only [checkCalls, List.not_mem_nil, false_or] at hcm
              exact hc c hcm
          · intro m hm
            rcases hm with hm | hm
            · exact hinv.2 m hm
            · simp only [sendCalls, List.not_mem_nil, false_or] at hm
              exact hs m hm
        · simp [htick] at hstep
      | signal =>
        cases hp : s.sigPending with
        | none => simp [hp] at hstep
        | some sg =>
          simp only [hp, Option.some.injEq] at hstep
          subst hstep
          simpa [checkCalls, sendCalls] using hinv

/-- A whole schedule keeps every call of checkMetadata and of the notifier on
the topic of the loop. -/
theorem run_topic (env : Env) (ntfyTopic : String) (sched : List Action) :
    ∀ s : LoopState,
      ((∀ c ∈ checkCalls s.trace, c.2 = ntfyTopic)
        ∧ ∀ m ∈ sendCalls s.trace, m.Topic = ntfyTopic) →
      (∀ c ∈ checkCalls (run env ntfyTopic sched s).trace, c.2 = ntfyTopic)
        ∧ ∀ m ∈ sendCalls (run env ntfyTopic sched s).trace, m.Topic = ntfyTopic := by
  induction sched with
  | nil => intro s hinv; exact hinv
  | cons a rest ih =>
    intro s hinv
    unfold run
    cases hstep : step env ntfyTopic a s with
    | none => exact ih s hinv
    | some s' => exact ih s' (step_topic env ntfyTopic a s s' hstep hinv)

/-- C9: for every process environment in which NTFY_TOPIC is unset or empty,
and every schedule, main ends with status 1 having written only its two log
lines: no token fetch, no request, no entry into checkMetadata or the
notifier.  Conversely, in every run every call of checkMetadata (and of the
notifier) carries a non-empty topic, the value of NTFY_TOPIC. -/
theorem C9_topic_required (environ : String → Option String) (env : Env)
    (sched : List Action) :
    ((environ "NTFY_TOPIC" = none ∨ environ "NTFY_TOPIC" = some "") →
      (main environ env sched).exited = some 1
      ∧ (main environ env sched).trace
        = [Event.log "EC2 Interruption Monitor starting...",
           Event.log "NTFY_TOPIC environment variable is not set"]
      ∧ tokenCalls (main environ env sched).trace = 0
      ∧ requests (main environ env sched).trace = []
      ∧ checkCalls (main environ env sched).trace = []
      ∧ sendCalls (main environ env sched).trace = [])
    ∧ (∀ c ∈ checkCalls (main environ env sched).trace,
        c.2 ≠ "" ∧ environ "NTFY_TOPIC" = some c.2)
    ∧ (∀ m ∈ sendCalls (main environ env sched).trace,
        m.Topic ≠ "" ∧ environ "NTFY_TOPIC" = some m.Topic) := by
  by_cases htopic : Getenv environ "NTFY_TOPIC" = ""
  · have hmain : main environ env sched
        = { tickReady := false
            sigPending := none
            trace := [Event.log "EC2 Interruption Monitor starting...",
                      Event.log "NTFY_TOPIC environment variable is not set"]
            exited := some 1 } := by
      simp [main, htopic]
    rw [hmain]
    simp [tokenCalls, requests, checkCalls, sendCalls]
  · have hmain : main environ env sched
        = run env (Getenv environ "NTFY_TOPIC") sched
            { tickReady := false
              sigPending := none
              trace := [Event.log "EC2 Interruption Monitor starting...",
                        Event.log ("Using ntfy topic: " ++ Getenv environ "NTFY_TOPIC")]
              exited := none } := by
      simp [main, htopic]
    have hset : environ "NTFY_TOPIC" = some (Getenv environ "NTFY_TOPIC") := by
      unfold Getenv at htopic ⊢
      cases hv : environ "NTFY_TOPIC" with
      | none => simp [hv] at htopic
      | some v => simp
    have hinv := run_topic env (Getenv environ "NTFY_TOPIC") sched
      { tickReady := false
        sigPending := none
        trace := [Event.log "EC2 Interruption Monitor starting...",
                  Event.log ("Using ntfy topic: " ++ Getenv environ "NTFY_TOPIC")]
        exited := none }
      (by simp [checkCalls, sendCalls])
    rw [← hmain] at hinv
    refine ⟨?_, ?_, ?_⟩
    · intro hunset
      exfalso
      apply htopic
      unfold Getenv
      rcases hunset with hu | hu <;> simp [hu]
    · intro c hc
      have := hinv.1 c hc
      rw [this]
      exact ⟨htopic, hset⟩
    · intro m hm
      have := hinv.2 m hm
      rw [this]
      exact ⟨htopic, hset⟩

theorem C9_topic_required_witness :
    ((main environEmpty (sampleEnv 200 noticeBody 200 "")
        [Action.fire, Action.select Arm.ticker]).exited = some 1
      ∧ (main environEmpty (sampleEnv 200 noticeBody 200 "")
        [Action.fire, Action.select Arm.ticker]).trace
        = [Event.log "EC2 Interruption Monitor starting...",
           Event.log "NTFY_TOPIC environment variable is not set"]
      ∧ tokenCalls (main environEmpty (sampleEnv 200 noticeBody 200 "")
        [Action.fire, Action.select Arm.ticker]).trace = 0
      ∧ requests (main environEmpty (sampleEnv 200 noticeBody 200 "")
        [Action.fire, Action.select Arm.ticker]).trace = []
      ∧ checkCalls (main environEmpty (sampleEnv 200 noticeBody 200 "")
        [Action.fire, Action.select Arm.ticker]).trace = []
      ∧ sendCalls (main environEmpty (sampleEnv 200 noticeBody 200 "")
        [Action.fire, Action.select Arm.ticker]).trace = [])
    ∧ ("alerts" ≠ "" ∧ environWith "alerts" "NTFY_TOPIC" = some "alerts") :=
  ⟨(C9_topic_required environEmpty (sampleEnv 200 noticeBody 200 "")
      [Action.fire, Action.select Arm.ticker]).1 (Or.inl rfl),
   (C9_topic_required (environWith "alerts") (sampleEnv 200 noticeBody 200 "")
      [Action.fire, Action.select Arm.ticker]).2.1 ("AQAEA", "alerts") (by decide)⟩

/-! ## The example scenario, evaluated -/

/-- The token endpoint answers `AQAEA`, the interruption endpoint answers 200
with a well-formed notice and the webhook answers 200: after one tick and a
SIGINT the process has exited with status 0, the notifier was called once,
with the interruption message, and no error line was logged. -/
theorem scenario_run :
    (main (environWith "alerts") (sampleEnv 200 noticeBody 200 "")
        [Action.fire, Action.select Arm.ticker, Action.deliver Signal.SIGINT,
         Action.select Arm.signal]).exited = some 0
    ∧ sendCalls (main (environWith "alerts") (sampleEnv 200 noticeBody 200 "")
        [Action.fire, Action.select Arm.ticker, Action.deliver Signal.SIGINT,
         Action.select Arm.signal]).trace = [interruptionMessage "alerts"]
    ∧ logs (main (environWith "alerts") (sampleEnv 200 noticeBody 200 "")
        [Action.fire, Action.select Arm.ticker, Action.deliver Signal.SIGINT,
         Action.select Arm.signal]).trace
      = ["EC2 Interruption Monitor starting...",
         "Using ntfy topic: alerts",
         "SPOT INTERRUPTION NOTICE: Action: terminate, Time: 2024-01-01 00:00:00 +0000 UTC",
         "No rebalance recommendation found or error: <nil>",
         "Received signal interrupt, shutting down"]
    ∧ fmtInt 503 = "503" := by
  decide

end Icrn
